import Mathlib

/-!
# Verification of the SysTick embassy time driver
(`src/embassy/time_driver_systick.rs` of ch32-hal)

Shallow embedding of the driver's data model and operations.

Modelling conventions:
* All `u64` machine arithmetic is modelled as `Nat` reduced modulo `2^64`
  (release-mode wrapping semantics; the source itself uses `wrapping_add`
  on the hot path).  The `period` field is an `AtomicU32` loaded `as u64`,
  so its value is `< 2^32`.
* The free-running hardware counter `CNT` is read-only for software; each
  read the code performs is passed to the embedded operation as an explicit
  parameter (`on_interrupt` reads it twice: once inside `now()` and once in
  `raw_cnt()`, so it takes two counter parameters).
* `u64` division by zero panics in Rust; `now` therefore returns an
  `Option`, `none` modelling the panic, and `on_interrupt`, which calls
  `now`, is `Option`-valued as well.
* The waker type is abstract (`W`).  Operations return the list of wakers
  they invoke (`w.wake()` calls), in order, so "invoked exactly once" and
  "never invoked" are statable.
-/

/-- `2^64`, the modulus of `u64` arithmetic. -/
def M64 : Nat := 2 ^ 64

/-- `u64::MAX`, the sentinel timestamp meaning "no pending deadline". -/
def U64MAX : Nat := 2 ^ 64 - 1

/-- Wrapping `u64` addition. -/
def wadd (a b : Nat) : Nat := (a + b) % M64

/-- Wrapping `u64` multiplication. -/
def wmul (a b : Nat) : Nat := (a * b) % M64

/-- The software-visible driver state: the fields of the `SystickDriver`
singleton together with the module-local `SYSTICK_WAKER` cell and the
software-written hardware registers.

* `period`   — the `period: AtomicU32` field, read back `as u64`;
* `timestamp` — `alarms[0].timestamp` (`Cell<u64>`), `u64::MAX` = disarmed;
* `waker`    — the `SYSTICK_WAKER` cell (`Option<Waker>`);
* `cmp`      — the last value software wrote to the `CMP` register;
* `stie`     — the SysTick interrupt-enable control bit;
* `ste`      — the counter-enable control bit. -/
structure DriverState (W : Type) where
  period : Nat
  timestamp : Nat
  waker : Option W
  cmp : Nat
  stie : Bool
  ste : Bool
  deriving Repr, DecidableEq

/-- The `DRIVER` static initializer: `period` starts at the non-zero
placeholder `1` ("avoid div by zero"), the single alarm at `u64::MAX`,
the waker cell empty. -/
def initialDriver (W : Type) : DriverState W :=
  { period := 1, timestamp := U64MAX, waker := none,
    cmp := 0, stie := false, ste := false }

/-- `SystickDriver::now`: reads `CNT` and integer-divides by `period`
(`rb.cnt().read() / period`).  `none` models the division-by-zero panic
when `period = 0`. -/
def nowOp (period cnt : Nat) : Option Nat :=
  if period = 0 then none else some (cnt / period)

/-- `SystickDriver::init`: computes
`cnt_per_tick = (hclk / 8) / TICK_HZ` and stores it `as u32` into
`period`; writes `u64::MAX - 1` then `0` to `CMP` (spurious-interrupt
quirk), and enables up-counting (`ste := true`).  `tickHz` is the
externally configured `embassy_time_driver::TICK_HZ` constant. -/
def initOp (W : Type) (s : DriverState W) (hclk tickHz : Nat) : DriverState W :=
  let cntPerTick := (hclk / 8) / tickHz
  { s with period := cntPerTick % 2 ^ 32, cmp := 0, ste := true }

/-- `SystickDriver::schedule_wake at waker`, with `cntRaw` the value the
single `self.raw_cnt()` read returns.  Inside one critical section it
replaces the stored waker with (a clone of) the new one, stores `at` into
the alarm slot, sets `stie`, computes
`cmp_val = min(at * period, cntRaw.wrapping_add(period))` and writes
`cmp_val + 1` to `CMP`.  Returns the new state, the wakers invoked by this
call (none — the old waker is dropped, not woken), and the value written
to `CMP`. -/
def scheduleWake (W : Type) (s : DriverState W) (at_ : Nat) (waker : W)
    (cntRaw : Nat) : DriverState W × List W × Nat :=
  let cmpVal := Nat.min (wmul at_ s.period) (wadd cntRaw s.period)
  let written := wadd cmpVal 1
  ({ s with waker := some waker, timestamp := at_, stie := true,
            cmp := written },
   [], written)

/-- `SystickDriver::on_interrupt`, with `cntNow` the counter value the
`self.now()` read returns and `cntRaw` the one `self.raw_cnt()` returns.
It loads the alarm timestamp; if `next > now() + 1` (u64 arithmetic) the
deadline is not due and is kept; otherwise `trigger_alarm` resets the slot
to `u64::MAX` and takes-and-wakes the stored waker, and the next wake
target is `u64::MAX`.  Either way it rearms
`CMP := min(target * period, cntRaw.wrapping_add(period)) + 1`.
Returns the new state, the wakers invoked, and the value written to
`CMP`; `none` models the panic of `now()` when `period = 0`. -/
def onInterrupt (W : Type) (s : DriverState W) (cntNow cntRaw : Nat) :
    Option (DriverState W × List W × Nat) :=
  (nowOp s.period cntNow).map fun nw =>
    if s.timestamp > wadd nw 1 then
      let written := wadd (Nat.min (wmul s.timestamp s.period) (wadd cntRaw s.period)) 1
      ({ s with cmp := written }, [], written)
    else
      let written := wadd (Nat.min (wmul U64MAX s.period) (wadd cntRaw s.period)) 1
      ({ s with timestamp := U64MAX, waker := none, cmp := written },
       s.waker.toList, written)

/-- The compare-register formula as the spec states it for both the
schedule path and the interrupt rearm:
`min(target * period, raw_counter + period) + 1`, in `u64` arithmetic. -/
def specCompareValue (target period raw : Nat) : Nat :=
  (Nat.min (target * period % M64) ((raw + period) % M64) + 1) % M64

example : nowOp 1 5 = some 5 := by decide
example : nowOp 0 5 = none := by decide
example :
    (scheduleWake Unit { initialDriver Unit with period := 1000 } 5 () 500).2.2
      = 1501 := by decide

/-! ## Helper lemmas -/

/-- The rearm expression `min(x, raw wrapping_add period) + 1` (in `u64`
arithmetic) never exceeds `raw + period + 1` in exact arithmetic. -/
theorem rearm_le_raw_add_period (x c p : Nat) :
    wadd (Nat.min x (wadd c p)) 1 ≤ c + p + 1 := by
  unfold wadd M64
  have h1 : Nat.min x ((c + p) % 2 ^ 64) ≤ (c + p) % 2 ^ 64 := Nat.min_le_right _ _
  have h2 : (c + p) % 2 ^ 64 ≤ c + p := Nat.mod_le _ _
  have h3 : (Nat.min x ((c + p) % 2 ^ 64) + 1) % 2 ^ 64
      ≤ Nat.min x ((c + p) % 2 ^ 64) + 1 := Nat.mod_le _ _
  omega

/-- Unfolding `onInterrupt` when `period ≠ 0`. -/
theorem onInterrupt_eq (W : Type) (s : DriverState W) (cntNow cntRaw : Nat)
    (hp : s.period ≠ 0) :
    onInterrupt W s cntNow cntRaw = some (
      if s.timestamp > wadd (cntNow / s.period) 1 then
        let written := wadd (Nat.min (wmul s.timestamp s.period) (wadd cntRaw s.period)) 1
        ({ s with cmp := written }, [], written)
      else
        let written := wadd (Nat.min (wmul U64MAX s.period) (wadd cntRaw s.period)) 1
        ({ s with timestamp := U64MAX, waker := none, cmp := written },
         s.waker.toList, written)) := by
  simp [onInterrupt, nowOp, hp]

/-! ## Claim C1 -/

/-- C1: on an interrupt-handler invocation in which the stored deadline is
due (`deadline ≤ now() + 1` in the handler's u64 arithmetic), the handler
resets the alarm slot to the sentinel `u64::MAX`, empties the waker slot,
and the wakers invoked are exactly the stored one (once, if present). -/
theorem C1_due_interrupt_consumes_waker (W : Type) (s : DriverState W)
    (cntNow cntRaw : Nat) (hp : s.period ≠ 0)
    (hdue : s.timestamp ≤ wadd (cntNow / s.period) 1) :
    ∀ r, onInterrupt W s cntNow cntRaw = some r →
      r.1.timestamp = U64MAX ∧ r.1.waker = none ∧ r.2.1 = s.waker.toList := by
  intro r hr
  rw [onInterrupt_eq W s cntNow cntRaw hp, if_neg (Nat.not_lt.mpr hdue)] at hr
  injection hr with h
  subst h
  simp

/-- A concrete armed state: period 1, deadline 0 (due), waker `7` stored. -/
def c1State : DriverState Nat :=
  { period := 1, timestamp := 0, waker := some 7,
    cmp := 0, stie := true, ste := true }

/-- The result of `onInterrupt` on `c1State` with both counter reads = 5:
deadline 0 is due, waker `7` fires, rearm to `min(MAX·1, 5+1) + 1 = 7`. -/
def c1Out : DriverState Nat × List Nat × Nat :=
  ({ period := 1, timestamp := U64MAX, waker := none,
     cmp := 7, stie := true, ste := true }, [7], 7)

/-- C1 witness at a concrete due state. -/
theorem C1_witness :
    c1Out.1.timestamp = U64MAX ∧ c1Out.1.waker = none ∧
      c1Out.2.1 = c1State.waker.toList :=
  C1_due_interrupt_consumes_waker Nat c1State 5 5 (by decide) (by decide)
    c1Out (by decide)

/-! ## Claim C2 -/

/-- C2: `schedule_wake(at, waker)` writes exactly
`min(at * period, raw_counter + period) + 1` (u64 arithmetic) to the
compare register, where `raw_counter` is the counter value read during
the call. -/
theorem C2_schedule_cmp_formula (W : Type) (s : DriverState W) (at_ : Nat)
    (w : W) (cntRaw : Nat) :
    (scheduleWake W s at_ w cntRaw).2.2 = specCompareValue at_ s.period cntRaw ∧
    (scheduleWake W s at_ w cntRaw).1.cmp = specCompareValue at_ s.period cntRaw :=
  ⟨rfl, rfl⟩

/-! ## Claim C5 -/

/-- C5: on an interrupt-handler invocation in which the stored deadline is
not yet due (`deadline > now() + 1`), the alarm-slot deadline and the
stored waker are unchanged, no waker is invoked, and the rearm value uses
the existing deadline as the next wake target. -/
theorem C5_not_due_preserves_alarm (W : Type) (s : DriverState W)
    (cntNow cntRaw : Nat) (hp : s.period ≠ 0)
    (hnot : wadd (cntNow / s.period) 1 < s.timestamp) :
    ∀ r, onInterrupt W s cntNow cntRaw = some r →
      r.1.timestamp = s.timestamp ∧ r.1.waker = s.waker ∧ r.2.1 = [] ∧
      r.2.2 = wadd (Nat.min (wmul s.timestamp s.period) (wadd cntRaw s.period)) 1 := by
  intro r hr
  rw [onInterrupt_eq W s cntNow cntRaw hp, if_pos hnot] at hr
  injection hr with h
  subst h
  simp

/-- A concrete armed state: period 1000, deadline 50, waker `7` stored. -/
def c5State : DriverState Nat :=
  { period := 1000, timestamp := 50, waker := some 7,
    cmp := 0, stie := true, ste := true }

/-- The result of `onInterrupt` on `c5State` with both counter reads = 500:
`now() = 0`, deadline 50 not due, rearm to `min(50000, 1500) + 1`. -/
def c5Out : DriverState Nat × List Nat × Nat :=
  ({ period := 1000, timestamp := 50, waker := some 7,
     cmp := 1501, stie := true, ste := true }, [], 1501)

/-- C5 witness at a concrete not-yet-due state. -/
theorem C5_witness :
    c5Out.1.timestamp = c5State.timestamp ∧ c5Out.1.waker = c5State.waker ∧
      c5Out.2.1 = [] ∧
      c5Out.2.2 = wadd (Nat.min (wmul c5State.timestamp c5State.period)
        (wadd 500 c5State.period)) 1 :=
  C5_not_due_preserves_alarm Nat c5State 500 500 (by decide) (by decide)
    c5Out (by decide)

/-! ## Claim C7 -/

/-- C7: for counter value `c` and period `p ≠ 0`, `now()` returns `c / p`
by truncating division: the result times `p` never exceeds `c` (never
rounds up), and one more tick would overshoot `c`. -/
theorem C7_now_truncating_div (p c : Nat) (hp : p ≠ 0) :
    nowOp p c = some (c / p) ∧ (c / p) * p ≤ c ∧ c < (c / p + 1) * p := by
  refine ⟨by simp [nowOp, hp], Nat.div_mul_le_self c p, ?_⟩
  have h1 := Nat.div_add_mod c p
  have h2 : c % p < p := Nat.mod_lt _ (Nat.pos_of_ne_zero hp)
  calc c = p * (c / p) + c % p := h1.symm
    _ < p * (c / p) + p := by omega
    _ = (c / p + 1) * p := by ring

/-- C7 witness: period 1000, counter 2500 — two completed ticks. -/
theorem C7_witness :
    nowOp 1000 2500 = some (2500 / 1000) ∧ (2500 / 1000) * 1000 ≤ 2500 ∧
      2500 < (2500 / 1000 + 1) * 1000 :=
  C7_now_truncating_div 1000 2500 (by decide)

/-! ## Claim C9 -/

/-- C9: `now()` is monotone non-decreasing in the raw counter: for a fixed
period and counter reads `c1 ≤ c2` (no wraparound between them), the
returned tick counts satisfy `n1 ≤ n2`. -/
theorem C9_now_monotone (p c1 c2 n1 n2 : Nat) (h12 : c1 ≤ c2)
    (h1 : nowOp p c1 = some n1) (h2 : nowOp p c2 = some n2) : n1 ≤ n2 := by
  unfold nowOp at h1 h2
  by_cases hp : p = 0
  · simp [hp] at h1
  · simp only [hp, if_false, Option.some.injEq] at h1 h2
    subst h1; subst h2
    exact Nat.div_le_div_right h12

/-- C9 witness: period 2, counter reads 3 then 7. -/
theorem C9_witness : 3 ≤ 7 ∧ (1 : Nat) ≤ 3 :=
  ⟨by decide, C9_now_monotone 2 3 7 1 3 (by decide) (by decide) (by decide)⟩

/-! ## Claim C10 -/

/-- C10: in the initial (pre-`init`) driver state the period placeholder
is exactly 1, so `now()` never divides by zero there and returns the raw
counter value itself. -/
theorem C10_initial_period_one (W : Type) :
    (initialDriver W).period = 1 ∧
    ∀ c, nowOp (initialDriver W).period c = some c := by
  refine ⟨rfl, fun c => ?_⟩
  simp [initialDriver, nowOp]

/-! ## Claim C3 -/

/-- C3: in both the interrupt-handler rearm and the schedule path, the
value written to the compare register is at most
`raw_counter_at_write_time + period + 1` (exact arithmetic). -/
theorem C3_cmp_bounded (W : Type) (s : DriverState W)
    (cntNow cntRaw at_ : Nat) (w : W) (r : DriverState W × List W × Nat)
    (hr : onInterrupt W s cntNow cntRaw = some r) :
    r.2.2 ≤ cntRaw + s.period + 1 ∧
    (scheduleWake W s at_ w cntRaw).2.2 ≤ cntRaw + s.period + 1 := by
  refine ⟨?_, rearm_le_raw_add_period _ _ _⟩
  unfold onInterrupt nowOp at hr
  by_cases hp : s.period = 0
  · simp [hp] at hr
  · simp only [hp, if_false, Option.map_some', Option.some.injEq] at hr
    split at hr <;> subst hr <;> exact rearm_le_raw_add_period _ _ _

/-- The result of `onInterrupt` on the initial state with counter reads
5 and 7: nothing pending, heartbeat rearm to `min(MAX·1, 7+1) + 1 = 9`. -/
def c3Out : DriverState Unit × List Unit × Nat :=
  ({ period := 1, timestamp := U64MAX, waker := none,
     cmp := 9, stie := false, ste := false }, [], 9)

/-- C3 witness at concrete states. -/
theorem C3_witness :
    c3Out.2.2 ≤ 7 + (initialDriver Unit).period + 1 ∧
    (scheduleWake Unit (initialDriver Unit) 3 () 7).2.2
      ≤ 7 + (initialDriver Unit).period + 1 :=
  C3_cmp_bounded Unit (initialDriver Unit) 5 7 3 () c3Out (by decide)

/-! ## Claim C4 -/

/-- With no pending deadline (sentinel target), the wrapped rearm value
`min(u64::MAX * p, c + p) + 1` equals `c + p + 1` whenever
`c + 2p < 2^64`. -/
theorem sentinel_rearm_value (p c : Nat) (hp : 0 < p) (hb : c + 2 * p < M64) :
    wadd (Nat.min (wmul U64MAX p) (wadd c p)) 1 = c + p + 1 := by
  unfold wadd wmul U64MAX M64 at *
  have h1 : (2 ^ 64 - 1) * p % 2 ^ 64 = 2 ^ 64 - p := by omega
  have h2 : (c + p) % 2 ^ 64 = c + p := by omega
  rw [h1, h2]
  have hmin : Nat.min (2 ^ 64 - p) (c + p) = c + p := by
    show min (2 ^ 64 - p) (c + p) = c + p
    rw [Nat.min_def]
    split <;> omega
  rw [hmin]
  omega

/-- C4 (amended): when the alarm slot holds the sentinel `u64::MAX`, the
interrupt handler writes exactly `raw_counter + period + 1` to the compare
register — the `u64::MAX * period` multiplication wraps to `2^64 - period`,
which the `min` bound discards — provided `raw_counter + 2·period < 2^64`.
(The unconditional claim is refuted by `C4_counterexample`.) -/
theorem C4_sentinel_rearm (W : Type) (s : DriverState W) (cntNow cntRaw : Nat)
    (hs : s.timestamp = U64MAX) (hp : 0 < s.period)
    (hb : cntRaw + 2 * s.period < M64)
    (r : DriverState W × List W × Nat)
    (hr : onInterrupt W s cntNow cntRaw = some r) :
    r.2.2 = cntRaw + s.period + 1 := by
  rw [onInterrupt_eq W s cntNow cntRaw (by omega)] at hr
  rw [hs] at hr
  injection hr with h
  subst h
  split
  · exact sentinel_rearm_value s.period cntRaw hp hb
  · exact sentinel_rearm_value s.period cntRaw hp hb

/-- State with no pending deadline and period 2. -/
def c4State : DriverState Unit :=
  { period := 2, timestamp := U64MAX, waker := none,
    cmp := 0, stie := true, ste := true }

/-- C4 counterexample: with period 2 and raw counter `2^64 - 3`, the
handler writes `2^64 - 1`, not `raw + period + 1 = 2^64`: near the top of
the counter's range the wrapped `u64::MAX * period = 2^64 - 2` loses to
nothing and the `min` picks it over `(raw + period) mod 2^64 = 2^64 - 1`. -/
theorem C4_counterexample :
    (onInterrupt Unit c4State 0 (2 ^ 64 - 3)).map (fun r => r.2.2)
      ≠ some (2 ^ 64 - 3 + 2 + 1) := by decide

/-- The result of `onInterrupt` on `c4State` with counter reads 0 and 100:
heartbeat rearm to `100 + 2 + 1`. -/
def c4Out : DriverState Unit × List Unit × Nat :=
  ({ period := 2, timestamp := U64MAX, waker := none,
     cmp := 103, stie := true, ste := true }, [], 103)

/-- C4 witness at a concrete in-range state. -/
theorem C4_witness : c4Out.2.2 = 100 + c4State.period + 1 :=
  C4_sentinel_rearm Unit c4State 0 100 rfl (by decide) (by decide)
    c4Out (by decide)

/-! ## Claim C6 -/

/-- C6 counterexample: `init` with hardware clock frequency 0 (and tick
rate 10000) stores `(0 / 8) / 10000 = 0` into `period`, so the claimed
"period > 0 after init for every hardware clock frequency" fails. -/
theorem C6_counterexample :
    ¬ 0 < (initOp Unit (initialDriver Unit) 0 10000).period := by decide

/-- C6 (amended): whenever the hardware clock frequency is at least
`8 · TICK_HZ` (so one logical tick is at least one divided hardware
count), `init` stores a strictly positive period, and neither
`schedule_wake` nor the interrupt handler ever modifies the period
thereafter.  (The unconditional claim over every frequency is refuted by
`C6_counterexample`.) -/
theorem C6_period_positive (W : Type) (s : DriverState W) (hclk tickHz : Nat)
    (hclkLt : hclk < 2 ^ 32) (htick : 0 < tickHz) (hge : 8 * tickHz ≤ hclk) :
    0 < (initOp W s hclk tickHz).period ∧
    (∀ (t : DriverState W) (at_ : Nat) (w : W) (cntRaw : Nat),
        (scheduleWake W t at_ w cntRaw).1.period = t.period) ∧
    (∀ (t : DriverState W) (cntNow cntRaw : Nat) (r : DriverState W × List W × Nat),
        onInterrupt W t cntNow cntRaw = some r → r.1.period = t.period) := by
  refine ⟨?_, fun t at_ w cntRaw => rfl, fun t cntNow cntRaw r hr => ?_⟩
  · show 0 < hclk / 8 / tickHz % 2 ^ 32
    have h1 : tickHz ≤ hclk / 8 :=
      (Nat.le_div_iff_mul_le (by omega)).mpr (by omega)
    have h2 : 1 ≤ hclk / 8 / tickHz := (Nat.one_le_div_iff htick).mpr h1
    have h3 : hclk / 8 / tickHz < 2 ^ 32 :=
      lt_of_le_of_lt (le_trans (Nat.div_le_self _ _) (Nat.div_le_self _ _)) hclkLt
    rw [Nat.mod_eq_of_lt h3]
    omega
  · unfold onInterrupt nowOp at hr
    by_cases hp : t.period = 0
    · simp [hp] at hr
    · simp only [hp, if_false, Option.map_some', Option.some.injEq] at hr
      split at hr <;> subst hr <;> rfl

/-- C6 witness: `hclk = 80000`, `TICK_HZ = 10000` gives period 1. -/
theorem C6_witness :
    0 < (initOp Unit (initialDriver Unit) 80000 10000).period ∧
    (∀ (t : DriverState Unit) (at_ : Nat) (w : Unit) (cntRaw : Nat),
        (scheduleWake Unit t at_ w cntRaw).1.period = t.period) ∧
    (∀ (t : DriverState Unit) (cntNow cntRaw : Nat)
        (r : DriverState Unit × List Unit × Nat),
        onInterrupt Unit t cntNow cntRaw = some r → r.1.period = t.period) :=
  C6_period_positive Unit (initialDriver Unit) 80000 10000
    (by decide) (by decide) (by decide)

/-! ## Claim C8 -/

/-- Whatever the interrupt handler wakes comes from the stored waker slot:
it wakes either nobody or exactly the stored waker. -/
theorem onInterrupt_woken_from_slot (W : Type) (s : DriverState W)
    (cntNow cntRaw : Nat) :
    ∀ r, onInterrupt W s cntNow cntRaw = some r →
      r.2.1 = [] ∨ r.2.1 = s.waker.toList := by
  intro r hr
  unfold onInterrupt nowOp at hr
  by_cases hp : s.period = 0
  · simp [hp] at hr
  · simp only [hp, if_false, Option.map_some', Option.some.injEq] at hr
    split at hr <;> subst hr
    · exact Or.inl rfl
    · exact Or.inr rfl

/-- C8: `schedule_wake` unconditionally overwrites the waker slot with the
new waker and the alarm slot with the new deadline, waking nobody in the
process; after scheduling `(d1, w1)` and then `(d2, w2)` (with no
interrupt in between), the slot holds `w2` and deadline `d2`, and any
subsequent interrupt invocation can only ever wake `w2` — the displaced
`w1` is dropped without being invoked. -/
theorem C8_schedule_replaces_waker (W : Type) (s : DriverState W)
    (d1 d2 : Nat) (w1 w2 : W) (c1 c2 : Nat) :
    (scheduleWake W s d1 w1 c1).1.waker = some w1 ∧
    (scheduleWake W s d1 w1 c1).1.timestamp = d1 ∧
    (scheduleWake W s d1 w1 c1).2.1 = [] ∧
    (scheduleWake W (scheduleWake W s d1 w1 c1).1 d2 w2 c2).1.waker = some w2 ∧
    (scheduleWake W (scheduleWake W s d1 w1 c1).1 d2 w2 c2).1.timestamp = d2 ∧
    (scheduleWake W (scheduleWake W s d1 w1 c1).1 d2 w2 c2).2.1 = [] ∧
    (∀ (cntNow cntRaw : Nat) (r : DriverState W × List W × Nat),
        onInterrupt W (scheduleWake W (scheduleWake W s d1 w1 c1).1 d2 w2 c2).1
          cntNow cntRaw = some r → r.2.1 = [] ∨ r.2.1 = [w2]) := by
  refine ⟨rfl, rfl, rfl, rfl, rfl, rfl, fun cntNow cntRaw r hr => ?_⟩
  exact onInterrupt_woken_from_slot W _ cntNow cntRaw r hr

/-- C8 witness: schedule deadline 10 with waker `1`, then deadline 3 with
waker `2`, from the initial state. -/
theorem C8_witness :
    (scheduleWake Nat (initialDriver Nat) 10 1 0).1.waker = some 1 ∧
    (scheduleWake Nat (initialDriver Nat) 10 1 0).1.timestamp = 10 ∧
    (scheduleWake Nat (initialDriver Nat) 10 1 0).2.1 = [] ∧
    (scheduleWake Nat (scheduleWake Nat (initialDriver Nat) 10 1 0).1
      3 2 0).1.waker = some 2 ∧
    (scheduleWake Nat (scheduleWake Nat (initialDriver Nat) 10 1 0).1
      3 2 0).1.timestamp = 3 ∧
    (scheduleWake Nat (scheduleWake Nat (initialDriver Nat) 10 1 0).1
      3 2 0).2.1 = [] ∧
    (∀ (cntNow cntRaw : Nat) (r : DriverState Nat × List Nat × Nat),
        onInterrupt Nat (scheduleWake Nat (scheduleWake Nat
          (initialDriver Nat) 10 1 0).1 3 2 0).1 cntNow cntRaw = some r →
          r.2.1 = [] ∨ r.2.1 = [2]) :=
  C8_schedule_replaces_waker Nat (initialDriver Nat) 10 3 1 2 0 0
